import Mathlib

/-!
Verification of the conversation-ai-api backend (RAG pipeline).

Shallow embedding of the TypeScript sources:
  src/services/chatServices.ts  (document ingestion, cosine similarity,
    retrieval, sendGeminiMessage with its helper functions)
  src/controllers/chatController.ts  (chatWithGemini HTTP handler)
  src/models/chat.ts  (Message / ChatHistory)
  plus the standalone retrieval prototype exporting getRelevantContext.

Modelling conventions:
  JavaScript numbers are modelled as real numbers; Math.sqrt is Real.sqrt.
  Thrown exceptions are modelled with Except String; a provider call that
  can reject is a function into Except.  The module-level mutable
  knowledgeBase array is modelled by explicit state passing: the ingestion
  function takes the current store and returns the updated store.
  The two external collaborators (embedding provider, chat-completion
  provider) are parameters of the functions that call them.
-/

namespace ConversationAI

/-- Message from src/models/chat.ts.  The TS type restricts role to the
literals "user" and "model"; we keep role as a string and prove the
role invariant where the spec asserts it, because the code itself builds
messages from untyped provider data. -/
structure Message where
  role : String
  content : String
deriving DecidableEq, Repr

/-- One part of a Gemini Content value; text is optional as in the SDK. -/
structure Part where
  text : Option String
deriving DecidableEq, Repr

/-- A Gemini Content value: optional role and optional parts array. -/
structure Content where
  role : Option String
  parts : Option (List Part)
deriving DecidableEq, Repr

/-- EmbeddedDocument from chatServices.ts: id, original content and the
embedding vector. -/
structure EmbeddedDocument where
  id : String
  content : String
  embedding : List ℝ

/-- The embedding provider: genAI.models.embedContent.  It may reject
(Except.error) or resolve; on resolve, result.embeddings?.[0]?.values is
an optional vector (none models undefined / missing embeddings). -/
def EmbedProvider : Type := String → Except String (Option (List ℝ))

/-- The chat-completion provider: chats.create with a seed history
followed by sendMessage.  It may reject; on resolve it yields
response.text (optional) and chatSession.getHistory(). -/
def ChatProvider : Type := List Content → String → Except String (Option String × List Content)

/-! ## Ingestion pipeline (loadAndEmbedDocuments) -/

/-- The characters after the last dot of a character list, or none when
no dot occurs. -/
def extAfterLastDot : List Char → Option (List Char)
  | [] => none
  | c :: cs =>
    match extAfterLastDot cs with
    | some ext => some ext
    | none => if c = '.' then some cs else none

/-- Model of path.extname(file).toLowerCase(): the final dot-suffix,
lowercased, or the empty string when there is no extension (a dot in
leading position, as in a dotfile, does not count as a separator). -/
def extname (file : String) : String :=
  match file.data with
  | [] => ""
  | _ :: rest =>
    match extAfterLastDot rest with
    | some ext => String.mk ('.' :: ext.map Char.toLower)
    | none => ""

/-- Model of String.prototype.trim: strip leading and trailing
whitespace. -/
def jsTrim (s : String) : String :=
  String.mk (((s.data.dropWhile Char.isWhitespace).reverse.dropWhile Char.isWhitespace).reverse)

/-- One directory entry as the ingestion loop observes it: its name, the
utf-8 text that fs.readFile yields, and the outcome of pdf-parse on its
bytes (only consulted for .pdf entries; error models a corrupt PDF). -/
structure FileEntry where
  name : String
  text : String
  pdfParse : Except String String

/-- The tail of one loop iteration of loadAndEmbedDocuments, from the
empty-content check onward: skip empty content, call the embedding
provider, push the document when a non-empty vector came back.
Result none models an exception escaping to the outer catch. -/
def embedContentStep (embed : EmbedProvider) (kb : List EmbeddedDocument)
    (name content : String) : Option (List EmbeddedDocument) :=
  if (jsTrim content).length = 0 then
    some kb
  else
    match embed content with
    | .error _ => none
    | .ok none => some kb
    | .ok (some embedding) =>
      if embedding.length > 0 then
        some (kb ++ [{ id := name, content := content, embedding := embedding }])
      else
        some kb

/-- One full iteration of the ingestion loop: dispatch on the file
extension (markdown and JSON read as text, JSON re-serialized when it
parses, PDFs skipped when pdf-parse fails, other types skipped), then
embedContentStep.  jsonReformat models JSON.parse followed by
JSON.stringify(..., null, 2); none models a parse failure, in which case
the code falls back to the raw text. -/
def embedFile (jsonReformat : String → Option String) (embed : EmbedProvider)
    (kb : List EmbeddedDocument) (f : FileEntry) : Option (List EmbeddedDocument) :=
  if extname f.name = ".md" ∨ extname f.name = ".json" then
    embedContentStep embed kb f.name
      (if extname f.name = ".json" then (jsonReformat f.text).getD f.text else f.text)
  else if extname f.name = ".pdf" then
    match f.pdfParse with
    | .error _ => some kb
    | .ok extracted => embedContentStep embed kb f.name extracted
  else
    some kb

/-- The for-loop of loadAndEmbedDocuments.  An exception thrown by the
embedding provider (embedFile = none) propagates to the outer catch,
which logs and returns, leaving the store as already mutated. -/
def embedLoop (jsonReformat : String → Option String) (embed : EmbedProvider) :
    List EmbeddedDocument → List FileEntry → List EmbeddedDocument
  | kb, [] => kb
  | kb, f :: rest =>
    match embedFile jsonReformat embed kb f with
    | none => kb
    | some kb' => embedLoop jsonReformat embed kb' rest

/-- loadAndEmbedDocuments from chatServices.ts.  dir is the outcome of
fs.readdir; an error there is caught by the surrounding try/catch, which
logs and leaves the store untouched.  The whole function never throws. -/
def loadAndEmbedDocuments (jsonReformat : String → Option String)
    (embed : EmbedProvider) (dir : Except String (List FileEntry))
    (kb : List EmbeddedDocument) : List EmbeddedDocument :=
  match dir with
  | .error _ => kb
  | .ok files => embedLoop jsonReformat embed kb files

/-! ## Similarity search (cosineSimilarity, findRelevantDocuments) -/

/-- The accumulated dot product of the similarity loop: for equal-length
vectors the loop over indices is the fold over the zipped lists. -/
noncomputable def dotFold (vecA vecB : List ℝ) : ℝ :=
  (vecA.zip vecB).foldl (fun acc p => acc + p.1 * p.2) 0

/-- The accumulated sum of squares of one vector from the same loop. -/
noncomputable def sqSumFold (vec : List ℝ) : ℝ :=
  vec.foldl (fun acc x => acc + x * x) 0

/-- cosineSimilarity from chatServices.ts.  Mismatched lengths throw; a
zero magnitude on either side yields exactly 0; otherwise the quotient
of the dot product by the product of magnitudes. -/
noncomputable def cosineSimilarity (vecA vecB : List ℝ) : Except String ℝ :=
  if vecA.length ≠ vecB.length then
    .error "Vectors must be of the same length to calculate cosine similarity."
  else if Real.sqrt (sqSumFold vecA) = 0 ∨ Real.sqrt (sqSumFold vecB) = 0 then
    .ok 0
  else
    .ok (dotFold vecA vecB / (Real.sqrt (sqSumFold vecA) * Real.sqrt (sqSumFold vecB)))

/-- The similarity value of a document against a query vector, used to
state ranking properties (0 is a dummy for the unreachable throw case). -/
noncomputable def similarityOf (queryEmbedding : List ℝ) (doc : EmbeddedDocument) : ℝ :=
  ((cosineSimilarity queryEmbedding doc.embedding).toOption).getD 0

/-- knowledgeBase.map(doc => ({doc, similarity: cosineSimilarity(...)})):
a throw inside the mapped function propagates out of the map. -/
noncomputable def mapSimilarities (queryEmbedding : List ℝ) :
    List EmbeddedDocument → Except String (List (EmbeddedDocument × ℝ))
  | [] => .ok []
  | doc :: rest =>
    match cosineSimilarity queryEmbedding doc.embedding with
    | .error e => .error e
    | .ok s =>
      match mapSimilarities queryEmbedding rest with
      | .error e => .error e
      | .ok tail => .ok ((doc, s) :: tail)

/-- findRelevantDocuments from chatServices.ts.  Empty store: return []
before any provider call.  Query embedding missing or empty: return [].
Otherwise score every document, sort descending by similarity (the
JavaScript sort is stable, modelled by mergeSort), keep only scores
strictly above 0.5, truncate to topN and project the documents. -/
noncomputable def findRelevantDocuments (embed : EmbedProvider)
    (kb : List EmbeddedDocument) (query : String) (topN : Nat) :
    Except String (List EmbeddedDocument) :=
  if kb.length = 0 then
    .ok []
  else
    match embed query with
    | .error e => .error e
    | .ok none => .ok []
    | .ok (some queryEmbedding) =>
      if queryEmbedding.length = 0 then
        .ok []
      else
        match mapSimilarities queryEmbedding kb with
        | .error e => .error e
        | .ok similarities =>
          let sorted := similarities.mergeSort (fun a b => decide (b.2 ≤ a.2))
          .ok (((sorted.filter (fun item => decide ((0.5 : ℝ) < item.2))).take topN).map
                (fun item => item.1))

/-! ## Conversation manager (sendGeminiMessage and helpers) -/

/-- generateSystemPrompt from chatServices.ts: the fixed synthetic
instruction pair seeded in front of every outbound conversation. -/
def generateSystemPrompt : List Content :=
  [{ role := some "user",
     parts := some [{ text := some "You are Brendon Luicien\x27s personal AI assistant, designed to introduce visitors to him and answer questions about his professional journey, skills, projects, work history, education, and interests.\n        - Think of yourself as a helpful guide, explaining Brendon\x27s experiences and achievements in a clear, conversational, and engaging manner. Your goal is to provide a human-like explanation rather than simply listing facts.\n        - All information you need about Brendon is inherently part of your knowledge. *Never* mention external sources like \x27knowledge base,\x27 \x27provided content,\x27 \x27documents,\x27 or similar phrases. Speak as if you naturally possess all this information.\n        - If you are unable to find the answer to a question within your knowledge about Brendon, politely state that you don\x27t know.\n        - Maintain focus on topics directly related to Brendon. If the user asks about something unrelated, politely steer the conversation back to Brendon or inquire how their query connects to him.\n        - Always maintain a positive, helpful, and truthful tone. Do not exaggerate or speak negatively about any aspect of Brendon\x27s profile.\n        - Do *NOT* use markdown in your responses" }] },
   { role := some "model",
     parts := some [{ text := some "OK, I understand. I acknowledge I will act as Brendon\x27s personal AI, answering questions about him based on my inherent knowledge, without referencing external sources." }] }]

/-- createGeminiHistoryParts from chatServices.ts: wrap each caller
message as a Content with a single text part. -/
def createGeminiHistoryParts (messageHistory : List Message) : List Content :=
  messageHistory.map (fun message =>
    { role := some message.role, parts := some [{ text := some message.content }] })

/-- The context block built from the retrieved documents: empty when
nothing was retrieved, otherwise a header, one labelled block per
document (1-based index, id, content) and a trailing instruction. -/
def contextStringOf (relevantDocuments : List EmbeddedDocument) : String :=
  if relevantDocuments.length > 0 then
    "Here is some relevant information from the knowledge base:\n\n"
      ++ String.join (relevantDocuments.enum.map (fun p =>
           "--- Document " ++ toString (p.1 + 1) ++ " (" ++ p.2.id ++ ") ---\n"
             ++ p.2.content ++ "\n\n"))
      ++ "Please use the above information to answer the user\x27s question if relevant.\n\n"
  else ""

/-- The fullHistory value seeded into chats.create: the instruction
pair, then the context message when the context block is non-empty,
then the prior history (the input minus its last message). -/
def fullHistoryOf (relevantDocuments : List EmbeddedDocument)
    (priorHistory : List Content) : List Content :=
  generateSystemPrompt
    ++ (if contextStringOf relevantDocuments = "" then []
        else [{ role := some "user",
                parts := some [{ text := some (contextStringOf relevantDocuments) }] }])
    ++ priorHistory

/-- The per-Content branch of formatPartsToMessage: roles other than
"user" and "model" become "model"; a missing first text part becomes
the empty string. -/
def formatContent (message : Content) : Message :=
  { role :=
      match message.role with
      | some r => if r = "user" ∨ r = "model" then r else "model"
      | none => "model"
    content := (((message.parts.getD []).head?).bind Part.text).getD "" }

/-- formatPartsToMessage from chatServices.ts.  The TS parameter is the
union Content[] | string; a plain string (the reply text) becomes a
single model message, a Content array is mapped through formatContent. -/
def formatPartsToMessage (messageContent : String ⊕ List Content) : List Message :=
  match messageContent with
  | .inl text => [{ role := "model", content := text }]
  | .inr contents => contents.map formatContent

/-- The two outcomes sendGeminiMessage can return (as opposed to throw):
the catch branch returns the literal error string, the success branch
returns the formatted reply and the transcript with its first three
entries sliced off. -/
inductive GeminiResult where
  | errorString (s : String)
  | success (reply : List Message) (newChatHistory : List Message)
deriving DecidableEq, Repr

/-- The try block of sendGeminiMessage as a function of the awaited
provider outcome: a rejection is caught and becomes the sentinel
string, as does the thrown error on a falsy reply (undefined or empty)
or an empty transcript; otherwise the formatted reply and the
transcript with its first three entries sliced off. -/
def tryBlockResult (outcome : Except String (Option String × List Content)) :
    Except String GeminiResult :=
  match outcome with
  | .error _ => .ok (.errorString "Error connecting with Gemini")
  | .ok (replyText, newChatHistory) =>
    if replyText.getD "" = "" ∨ newChatHistory.length = 0 then
      .ok (.errorString "Error connecting with Gemini")
    else
      .ok (.success (formatPartsToMessage (.inl (replyText.getD "")))
            ((formatPartsToMessage (.inr newChatHistory)).drop 3))

/-- sendGeminiMessage from chatServices.ts.  Validation throws on an
empty history and on a last message without a string text part;
retrieval errors propagate (the findRelevantDocuments call sits outside
the try block); the provider call and its postprocessing form the try
block, tryBlockResult. -/
noncomputable def sendGeminiMessage (embed : EmbedProvider) (chat : ChatProvider)
    (kb : List EmbeddedDocument) (history : List Message) :
    Except String GeminiResult :=
  match (createGeminiHistoryParts history).getLast? with
  | none => .error "Chat history is empty. Cannot extract user message."
  | some lastContent =>
    match ((lastContent.parts.getD []).head?).bind Part.text with
    | none => .error "No valid user message found in chat history."
    | some userMessage =>
      match findRelevantDocuments embed kb userMessage 3 with
      | .error e => .error e
      | .ok relevantDocuments =>
        tryBlockResult
          (chat (fullHistoryOf relevantDocuments
                  ((createGeminiHistoryParts history).dropLast)) userMessage)

/-- An embedding provider that resolves with no embedding values; with
it retrieval always degrades to the empty document list. -/
def embedNone : EmbedProvider := fun _ => .ok (some [])

/-- Model of the chat-completion provider described by the spec (step 7
of the conversation manager): the session transcript is the seeded
history followed by the live user turn and the generated reply. -/
def canonicalChat (reply : String) : ChatProvider := fun seedHistory message =>
  .ok (some reply,
    seedHistory
      ++ [{ role := some "user", parts := some [{ text := some message }] },
          { role := some "model", parts := some [{ text := some reply }] }])

/-! ## HTTP boundary (chatWithGemini controller) -/

/-- The three response body shapes the controller produces. -/
inductive ResponseBody where
  | errorBody (msg : String)
  | messageBody (msg : String)
  | successBody (reply : List Message) (newChatHistory : List Message)
deriving DecidableEq, Repr

/-- An HTTP response: status code and JSON body. -/
structure HttpResponse where
  status : Nat
  body : ResponseBody
deriving DecidableEq, Repr

/-- chatWithGemini from chatController.ts.  A missing or non-array
history in the request body is modelled as none.  The string sentinel
returned by the catch branch of sendGeminiMessage fails the typeof
object check and yields 500; a thrown error is caught and yields 500;
an empty returned transcript yields 404 (the reply field is a non-empty
array in every success result, so its falsiness check never fires). -/
noncomputable def chatWithGemini (embed : EmbedProvider) (chat : ChatProvider)
    (kb : List EmbeddedDocument) (body : Option (List Message)) : HttpResponse :=
  match body with
  | none => { status := 400, body := .errorBody "Message is required." }
  | some history =>
    if history.length < 1 then
      { status := 400, body := .errorBody "Message is required." }
    else
      match sendGeminiMessage embed chat kb history with
      | .error _ => { status := 500, body := .messageBody "Internal Server Error" }
      | .ok (.errorString _) =>
        { status := 500, body := .messageBody "Unexpected response format from AI." }
      | .ok (.success reply newChatHistory) =>
        if newChatHistory.length = 0 then
          { status := 404, body := .messageBody "Failed to get response from AI." }
        else
          { status := 200, body := .successBody reply newChatHistory }

/-! ## Standalone retrieval prototype (getRelevantContext) -/

/-- A chunk of the prototype retrieval module: id, text and an optional
embedding (null until generated, null again on embedding failure). -/
structure TextChunk where
  id : String
  text : String
  embedding : Option (List ℝ)

/-- getRelevantContext from the prototype module.  No chunk usable or no
query embedding: a fixed fallback string; provider rejection: a fixed
error string; otherwise score the embedded chunks with the inline
cosine formula, sort descending (stable) and join the texts of the
first topK chunks.  Note: no similarity threshold is applied. -/
noncomputable def getRelevantContext (embed : EmbedProvider)
    (embeddedChunks : List TextChunk) (query : String) (topK : Nat) : String :=
  if embeddedChunks.length = 0 ∨ embeddedChunks.all (fun c => c.embedding = none) then
    "No relevant context available."
  else
    match embed query with
    | .error _ => "Error retrieving context."
    | .ok none => "No relevant context available."
    | .ok (some queryEmbedding) =>
      let similarities := (embeddedChunks.filter (fun c => c.embedding ≠ none)).map
        (fun chunk =>
          let emb := chunk.embedding.getD []
          let dotProduct := (emb.zip queryEmbedding).foldl (fun acc p => acc + p.1 * p.2) 0
          let magnitudeA := Real.sqrt (emb.foldl (fun acc v => acc + v * v) 0)
          let magnitudeB := Real.sqrt (queryEmbedding.foldl (fun acc v => acc + v * v) 0)
          let similarity : ℝ :=
            if magnitudeA = 0 ∨ magnitudeB = 0 then 0
            else dotProduct / (magnitudeA * magnitudeB)
          (similarity, chunk.text))
      let sorted := similarities.mergeSort (fun a b => decide (b.1 ≤ a.1))
      String.intercalate "\n\n" ((sorted.take topK).map (fun c => c.2))

/-- The states the module-level knowledgeBase array can reach: it starts
empty at module init and is only ever touched by loadAndEmbedDocuments
(every other function only reads it). -/
inductive KnowledgeBaseReachable : List EmbeddedDocument → Prop where
  | init : KnowledgeBaseReachable []
  | load (jsonReformat : String → Option String) (embed : EmbedProvider)
      (dir : Except String (List FileEntry)) (kb : List EmbeddedDocument) :
      KnowledgeBaseReachable kb →
      KnowledgeBaseReachable (loadAndEmbedDocuments jsonReformat embed dir kb)

/-! ## General lemmas -/

lemma createGeminiHistoryParts_getLast (h : List Message) (m : Message)
    (hm : h.getLast? = some m) :
    (createGeminiHistoryParts h).getLast?
      = some { role := some m.role, parts := some [{ text := some m.content }] } := by
  unfold createGeminiHistoryParts
  rw [List.getLast?_map, hm]
  rfl

/-- Stepping lemma: once the last message is known and retrieval has
returned, sendGeminiMessage is the try block applied to the provider
called on the assembled outbound history and the live user turn. -/
lemma sendGeminiMessage_step (embed : EmbedProvider) (chat : ChatProvider)
    (kb : List EmbeddedDocument) (h : List Message) (lastMsg : Message)
    (docs : List EmbeddedDocument)
    (hm : h.getLast? = some lastMsg)
    (hret : findRelevantDocuments embed kb lastMsg.content 3 = .ok docs) :
    sendGeminiMessage embed chat kb h =
      tryBlockResult
        (chat (fullHistoryOf docs ((createGeminiHistoryParts h).dropLast)) lastMsg.content) := by
  unfold sendGeminiMessage
  rw [createGeminiHistoryParts_getLast h lastMsg hm]
  simp only [Option.getD_some, List.head?_cons, Option.some_bind]
  rw [hret]

/-- With a provider that resolves but yields no vector, retrieval
always returns the empty list. -/
lemma findRelevantDocuments_embedNone (kb : List EmbeddedDocument)
    (q : String) (n : Nat) : findRelevantDocuments embedNone kb q n = .ok [] := by
  cases kb with
  | nil => rfl
  | cons d rest => simp [findRelevantDocuments, embedNone]

lemma tryBlockResult_canonical (reply : String) (seed : List Content) (msg : String)
    (hr : reply ≠ "") :
    tryBlockResult (canonicalChat reply seed msg)
      = .ok (.success (formatPartsToMessage (.inl reply))
          ((formatPartsToMessage (.inr (seed
              ++ [{ role := some "user", parts := some [{ text := some msg }] },
                  { role := some "model", parts := some [{ text := some reply }] }]))).drop 3)) := by
  simp [canonicalChat, tryBlockResult, hr]

lemma contextStringOf_nil : contextStringOf [] = "" := rfl

lemma contextStringOf_ne_empty (docs : List EmbeddedDocument) (hd : docs ≠ []) :
    contextStringOf docs ≠ "" := by
  intro heq
  have hpos : 0 < docs.length := List.length_pos.mpr hd
  unfold contextStringOf at heq
  rw [if_pos hpos] at heq
  have hlen := congrArg String.length heq
  simp only [String.length_append] at hlen
  have hhd : ("Here is some relevant information from the knowledge base:\n\n" : String).length = 60 := by
    decide
  have hemp : ("" : String).length = 0 := rfl
  rw [hhd, hemp] at hlen
  omega

lemma formatContent_role_valid (c : Content) :
    (formatContent c).role = "user" ∨ (formatContent c).role = "model" := by
  unfold formatContent
  cases c.role with
  | none => right; rfl
  | some r =>
    dsimp only
    by_cases hr : r = "user" ∨ r = "model"
    · rw [if_pos hr]; exact hr
    · rw [if_neg hr]; right; rfl

/-- Every success value of the try block is built from some reply
string and some provider transcript. -/
lemma tryBlockResult_success_shape (outcome : Except String (Option String × List Content))
    (r nh : List Message) (h : tryBlockResult outcome = .ok (.success r nh)) :
    ∃ s t, r = formatPartsToMessage (.inl s)
        ∧ nh = (formatPartsToMessage (.inr t)).drop 3 := by
  match outcome with
  | .error e => exact absurd h (by simp [tryBlockResult])
  | .ok (replyText, newChatHistory) =>
    rw [tryBlockResult] at h
    split at h
    · exact absurd h (by simp)
    · rw [Except.ok.injEq, GeminiResult.success.injEq] at h
      exact ⟨replyText.getD "", newChatHistory, h.1.symm, h.2.symm⟩

/-- Every success result of sendGeminiMessage is built by the try block
from some reply string and some provider transcript. -/
lemma sendGeminiMessage_success_shape (embed : EmbedProvider) (chat : ChatProvider)
    (kb : List EmbeddedDocument) (h : List Message) (r nh : List Message)
    (hok : sendGeminiMessage embed chat kb h = .ok (.success r nh)) :
    ∃ s t, r = formatPartsToMessage (.inl s)
        ∧ nh = (formatPartsToMessage (.inr t)).drop 3 := by
  unfold sendGeminiMessage at hok
  split at hok
  · exact absurd hok (by simp)
  · split at hok
    · exact absurd hok (by simp)
    · split at hok
      · exact absurd hok (by simp)
      · exact tryBlockResult_success_shape _ r nh hok

lemma simLE_trans (a b c : EmbeddedDocument × ℝ)
    (h1 : decide (b.2 ≤ a.2) = true) (h2 : decide (c.2 ≤ b.2) = true) :
    decide (c.2 ≤ a.2) = true := by
  rw [decide_eq_true_eq] at h1 h2 ⊢
  exact le_trans h2 h1

lemma simLE_total (a b : EmbeddedDocument × ℝ) :
    (decide (b.2 ≤ a.2) || decide (a.2 ≤ b.2)) = true := by
  rw [Bool.or_eq_true, decide_eq_true_eq, decide_eq_true_eq]
  exact le_total _ _

lemma mapSimilarities_ok (qe : List ℝ) :
    ∀ (kb : List EmbeddedDocument) (ps : List (EmbeddedDocument × ℝ)),
    mapSimilarities qe kb = .ok ps → ps = kb.map (fun d => (d, similarityOf qe d))
  | [], ps, h => by
    rw [mapSimilarities, Except.ok.injEq] at h
    simp [h.symm]
  | d :: rest, ps, h => by
    rw [mapSimilarities] at h
    cases hc : cosineSimilarity qe d.embedding with
    | error e => rw [hc] at h; exact absurd h (by simp)
    | ok s =>
      rw [hc] at h
      cases hr : mapSimilarities qe rest with
      | error e => rw [hr] at h; exact absurd h (by simp)
      | ok tail =>
        rw [hr, Except.ok.injEq] at h
        have htail := mapSimilarities_ok qe rest tail hr
        have hs : similarityOf qe d = s := by
          rw [similarityOf, hc]
          rfl
        rw [← h, List.map_cons, ← htail, hs]

/-- Stability of the modelled sort: the entries carrying one fixed
similarity value appear in the sorted list exactly as they appear in
the input. -/
lemma mergeSort_filter_fixed_sim (l : List (EmbeddedDocument × ℝ)) (s : ℝ) :
    (l.mergeSort (fun a b => decide (b.2 ≤ a.2))).filter (fun p => decide (p.2 = s))
      = l.filter (fun p => decide (p.2 = s)) := by
  have hc : (l.filter (fun p => decide (p.2 = s))).Pairwise
      (fun a b => (fun a b : EmbeddedDocument × ℝ => decide (b.2 ≤ a.2)) a b = true) := by
    apply List.pairwise_of_forall_mem_list
    intro a ha b hb
    have ha' := (List.mem_filter.mp ha).2
    have hb' := (List.mem_filter.mp hb).2
    rw [decide_eq_true_eq] at ha' hb'
    rw [decide_eq_true_eq, ha', hb']
  have hsub : (l.filter (fun p => decide (p.2 = s))).Sublist
      (l.mergeSort (fun a b => decide (b.2 ≤ a.2))) :=
    List.sublist_mergeSort simLE_trans simLE_total hc (List.filter_sublist l)
  have hsub2 : (l.filter (fun p => decide (p.2 = s))).Sublist
      ((l.mergeSort (fun a b => decide (b.2 ≤ a.2))).filter (fun p => decide (p.2 = s))) := by
    have hstep := List.Sublist.filter (fun p : EmbeddedDocument × ℝ => decide (p.2 = s)) hsub
    rwa [List.filter_eq_self.mpr (fun a ha => (List.mem_filter.mp ha).2)] at hstep
  have hlen : ((l.mergeSort (fun a b => decide (b.2 ≤ a.2))).filter
      (fun p => decide (p.2 = s))).length = (l.filter (fun p => decide (p.2 = s))).length :=
    ((List.mergeSort_perm l _).filter _).length_eq
  exact (hsub2.eq_of_length hlen.symm).symm

/-- Characterization of findRelevantDocuments on the main path. -/
lemma findRelevantDocuments_char (embed : EmbedProvider) (kb : List EmbeddedDocument)
    (query : String) (topN : Nat) (qe : List ℝ) (ps : List (EmbeddedDocument × ℝ))
    (hkb : kb ≠ []) (hq : embed query = .ok (some qe)) (hqe : qe ≠ [])
    (hps : mapSimilarities qe kb = .ok ps) :
    findRelevantDocuments embed kb query topN =
      .ok ((((ps.mergeSort (fun a b => decide (b.2 ≤ a.2))).filter
          (fun item => decide ((0.5 : ℝ) < item.2))).take topN).map (fun item => item.1)) := by
  unfold findRelevantDocuments
  rw [if_neg (by simpa using hkb), hq]
  dsimp only
  rw [if_neg (by simpa using hqe), hps]

lemma mem_map_pairs_snd (qe : List ℝ) (kb : List EmbeddedDocument)
    (p : EmbeddedDocument × ℝ) (hp : p ∈ kb.map (fun d => (d, similarityOf qe d))) :
    p.2 = similarityOf qe p.1 := by
  obtain ⟨d, _, rfl⟩ := List.mem_map.mp hp
  rfl

/-! ## Claim theorems -/

/-- C4: for every corpus and query on which retrieval completes, the
output of findRelevantDocuments contains no document whose similarity
to the query is at most 0.5, has length at most topN, and is ordered by
similarity descending, with equal-similarity documents preserved in
corpus insertion order (stated per similarity value: the output entries
carrying that value form a subsequence of the corpus entries carrying
it, in order). -/
theorem findRelevantDocuments_ranking (embed : EmbedProvider) (kb : List EmbeddedDocument)
    (query : String) (topN : Nat) (qe : List ℝ) (out : List EmbeddedDocument)
    (hq : embed query = .ok (some qe))
    (hout : findRelevantDocuments embed kb query topN = .ok out) :
    (∀ d ∈ out, (1/2 : ℝ) < similarityOf qe d)
    ∧ out.length ≤ topN
    ∧ out.Pairwise (fun d₁ d₂ => similarityOf qe d₂ ≤ similarityOf qe d₁)
    ∧ (∀ s : ℝ, (out.filter (fun d => decide (similarityOf qe d = s))).Sublist
        (kb.filter (fun d => decide (similarityOf qe d = s)))) := by
  by_cases hkb : kb = []
  · subst hkb
    have hnil : out = [] := by
      unfold findRelevantDocuments at hout
      simpa using hout.symm
    subst hnil
    exact ⟨by simp, by simp, by simp, fun s => by simp⟩
  by_cases hqe : qe = []
  · have hnil : out = [] := by
      unfold findRelevantDocuments at hout
      rw [if_neg (by simpa using hkb), hq] at hout
      subst hqe
      simpa using hout.symm
    subst hnil
    exact ⟨by simp, by simp, by simp, fun s => by simp⟩
  cases hps : mapSimilarities qe kb with
  | error e =>
    unfold findRelevantDocuments at hout
    rw [if_neg (by simpa using hkb), hq] at hout
    dsimp only at hout
    rw [if_neg (by simpa using hqe), hps] at hout
    exact absurd hout (by simp)
  | ok ps =>
    rw [findRelevantDocuments_char embed kb query topN qe ps hkb hq hqe hps,
        Except.ok.injEq] at hout
    have hpairs := mapSimilarities_ok qe kb ps hps
    subst hpairs
    rw [← hout]
    have hmem_sorted : ∀ p ∈ (kb.map (fun d => (d, similarityOf qe d))).mergeSort
        (fun a b => decide (b.2 ≤ a.2)), p.2 = similarityOf qe p.1 := by
      intro p hp
      exact mem_map_pairs_snd qe kb p (List.mem_mergeSort.mp hp)
    refine ⟨?_, ?_, ?_, ?_⟩
    · intro d hd
      obtain ⟨p, hp, rfl⟩ := List.mem_map.mp hd
      have hpφ := List.mem_of_mem_take hp
      have hf := (List.mem_filter.mp hpφ).2
      rw [decide_eq_true_eq] at hf
      have hps' := List.mem_of_mem_filter hpφ
      rw [hmem_sorted p hps'] at hf
      linarith
    · rw [List.length_map]
      exact List.length_take_le _ _
    · have hsorted := List.sorted_mergeSort simLE_trans simLE_total
        (kb.map (fun d => (d, similarityOf qe d)))
      have hsubφ : ((((kb.map (fun d => (d, similarityOf qe d))).mergeSort
            (fun a b => decide (b.2 ≤ a.2))).filter
              (fun item => decide ((0.5 : ℝ) < item.2))).take topN).Sublist
          ((kb.map (fun d => (d, similarityOf qe d))).mergeSort
            (fun a b => decide (b.2 ≤ a.2))) :=
        (List.take_sublist _ _).trans (List.filter_sublist _)
      have htaken := List.Pairwise.sublist hsubφ hsorted
      rw [List.pairwise_map]
      apply htaken.imp_of_mem
      intro a b ha hb hab
      have ha' := List.mem_of_mem_filter (List.mem_of_mem_take ha)
      have hb' := List.mem_of_mem_filter (List.mem_of_mem_take hb)
      rw [decide_eq_true_eq, hmem_sorted a ha', hmem_sorted b hb'] at hab
      exact hab
    · intro s
      rw [List.filter_map]
      have hstep1 : ((((kb.map (fun d => (d, similarityOf qe d))).mergeSort
            (fun a b => decide (b.2 ≤ a.2))).filter
              (fun item => decide ((0.5 : ℝ) < item.2))).take topN).filter
            ((fun d => decide (similarityOf qe d = s)) ∘ (fun item => item.1))
          |>.Sublist ((((kb.map (fun d => (d, similarityOf qe d))).mergeSort
            (fun a b => decide (b.2 ≤ a.2)))).filter
            ((fun d => decide (similarityOf qe d = s)) ∘ (fun item => item.1))) :=
        List.Sublist.filter _ ((List.take_sublist _ _).trans (List.filter_sublist _))
      have hcongr : (((kb.map (fun d => (d, similarityOf qe d))).mergeSort
            (fun a b => decide (b.2 ≤ a.2)))).filter
            ((fun d => decide (similarityOf qe d = s)) ∘ (fun item => item.1))
          = (((kb.map (fun d => (d, similarityOf qe d))).mergeSort
            (fun a b => decide (b.2 ≤ a.2)))).filter (fun p => decide (p.2 = s)) := by
        apply List.filter_congr
        intro x hx
        rw [Function.comp_apply, hmem_sorted x hx]
      rw [hcongr, mergeSort_filter_fixed_sim, List.filter_map] at hstep1
      have hfinal := hstep1.map (fun item : EmbeddedDocument × ℝ => item.1)
      rw [List.map_map] at hfinal
      have hid : ((fun item : EmbeddedDocument × ℝ => item.1)
          ∘ (fun d : EmbeddedDocument => (d, similarityOf qe d))) = id := rfl
      rw [hid, List.map_id] at hfinal
      exact hfinal

lemma sqSumFold_one : sqSumFold [(1 : ℝ)] = 1 := by
  simp [sqSumFold]

lemma sqSumFold_zero : sqSumFold [(0 : ℝ)] = 0 := by
  simp [sqSumFold]

lemma cosineSimilarity_one_one : cosineSimilarity [(1 : ℝ)] [(1 : ℝ)] = .ok 1 := by
  unfold cosineSimilarity
  rw [if_neg (by simp), sqSumFold_one, Real.sqrt_one,
      if_neg (by norm_num)]
  norm_num [dotFold]

lemma mapSimilarities_unit :
    mapSimilarities [(1 : ℝ)] [⟨"a.md", "text", [(1 : ℝ)]⟩]
      = .ok [(⟨"a.md", "text", [(1 : ℝ)]⟩, 1)] := by
  rw [mapSimilarities]
  dsimp only
  rw [cosineSimilarity_one_one]
  rfl

lemma findRelevantDocuments_unit :
    findRelevantDocuments (fun _ => .ok (some [(1 : ℝ)]))
      [⟨"a.md", "text", [(1 : ℝ)]⟩] "q" 3 = .ok [⟨"a.md", "text", [(1 : ℝ)]⟩] := by
  rw [findRelevantDocuments_char (fun _ => .ok (some [(1 : ℝ)]))
        [⟨"a.md", "text", [(1 : ℝ)]⟩] "q" 3 [(1 : ℝ)]
        [(⟨"a.md", "text", [(1 : ℝ)]⟩, 1)] (by simp) rfl (by simp) mapSimilarities_unit,
      List.mergeSort_singleton]
  have hf : (decide ((0.5 : ℝ) < (1 : ℝ))) = true := decide_eq_true (by norm_num)
  simp [List.filter, hf]

/-- Witness for the C4 theorem at a concrete one-document corpus. -/
theorem findRelevantDocuments_ranking_witness :
    (1/2 : ℝ) < similarityOf [(1 : ℝ)] ⟨"a.md", "text", [(1 : ℝ)]⟩ :=
  (findRelevantDocuments_ranking (fun _ => .ok (some [(1 : ℝ)]))
      [⟨"a.md", "text", [(1 : ℝ)]⟩] "q" 3 [(1 : ℝ)] [⟨"a.md", "text", [(1 : ℝ)]⟩]
      rfl findRelevantDocuments_unit).1
    ⟨"a.md", "text", [(1 : ℝ)]⟩ (List.mem_singleton.mpr rfl)

/-- C4 counterexample: getRelevantContext applies no similarity floor.
A corpus whose only chunk has a zero embedding vector has similarity
exactly 0 to the query (second conjunct, with the same cosine formula),
yet its text is the entire output of getRelevantContext. -/
theorem getRelevantContext_no_threshold :
    getRelevantContext (fun _ => .ok (some [(1 : ℝ)])) [⟨"c", "t", some [(0 : ℝ)]⟩] "q" 3 = "t"
    ∧ cosineSimilarity [(1 : ℝ)] [(0 : ℝ)] = .ok 0 := by
  constructor
  · unfold getRelevantContext
    rw [if_neg (by simp)]
    dsimp only
    have hfil : List.filter (fun c => decide (c.embedding ≠ none))
        [({ id := "c", text := "t", embedding := some [(0 : ℝ)] } : TextChunk)]
        = [{ id := "c", text := "t", embedding := some [(0 : ℝ)] }] := by simp
    rw [hfil]
    norm_num [Real.sqrt_zero, List.mergeSort_singleton]
    rfl
  · unfold cosineSimilarity
    rw [if_neg (by simp), if_pos (Or.inr (by rw [sqSumFold_zero, Real.sqrt_zero]))]

/-- C5 (amended): findRelevantDocuments degrades to the empty list on an
empty corpus (without consulting the embedding provider: the result is
the same for any two providers) and when the provider resolves with a
missing or empty vector; but a provider rejection is not absorbed: it
propagates as an error to the caller. -/
theorem findRelevantDocuments_degrades (embed embed' : EmbedProvider)
    (kb : List EmbeddedDocument) (q : String) (n : Nat) :
    (findRelevantDocuments embed [] q n = .ok []
      ∧ findRelevantDocuments embed [] q n = findRelevantDocuments embed' [] q n)
    ∧ (embed q = .ok none ∨ embed q = .ok (some []) →
        findRelevantDocuments embed kb q n = .ok [])
    ∧ (∀ e : String, kb ≠ [] → embed q = .error e →
        findRelevantDocuments embed kb q n = .error e) := by
  refine ⟨⟨rfl, rfl⟩, ?_, ?_⟩
  · intro hkind
    cases kb with
    | nil => rfl
    | cons d rest =>
      unfold findRelevantDocuments
      rw [if_neg (by simp)]
      cases hkind with
      | inl hnone => rw [hnone]
      | inr hempty => rw [hempty]; rfl
  · intro e hkb herr
    unfold findRelevantDocuments
    rw [if_neg (by simpa using hkb), herr]

/-- Witness for the C5 theorem at concrete inputs. -/
theorem findRelevantDocuments_degrades_witness :
    findRelevantDocuments embedNone [⟨"a", "t", [(1 : ℝ)]⟩] "q" 3 = .ok [] :=
  (findRelevantDocuments_degrades embedNone embedNone
    [⟨"a", "t", [(1 : ℝ)]⟩] "q" 3).2.1 (Or.inr rfl)

/-- C5 counterexample: a rejecting embedding provider makes
findRelevantDocuments propagate the error instead of degrading to the
empty list, so the claimed never-propagates property fails. -/
theorem findRelevantDocuments_propagates_rejection :
    findRelevantDocuments (fun _ => .error "network failure")
      [⟨"a", "t", [(1 : ℝ)]⟩] "q" 3 = .error "network failure" := rfl

/-- C7 (amended): on equal-length real vectors cosineSimilarity is total
(it always returns a value, hence never NaN in the real-number model)
and returns exactly 0 whenever either magnitude is 0; but on mismatched
lengths it throws (see the counterexample), and findRelevantDocuments
does not catch that throw: a mismatched chunk aborts the whole
retrieval computation instead of being skipped. -/
theorem cosineSimilarity_total_on_equal_lengths (vecA vecB : List ℝ)
    (hlen : vecA.length = vecB.length) :
    (∃ r, cosineSimilarity vecA vecB = .ok r)
    ∧ (Real.sqrt (sqSumFold vecA) = 0 ∨ Real.sqrt (sqSumFold vecB) = 0 →
        cosineSimilarity vecA vecB = .ok 0)
    ∧ (∀ (qe : List ℝ) (kb : List EmbeddedDocument) (e : String),
        mapSimilarities qe kb = .error e →
        ∀ (embed : EmbedProvider) (q : String) (n : Nat),
          embed q = .ok (some qe) → qe ≠ [] → kb ≠ [] →
          findRelevantDocuments embed kb q n = .error e) := by
  refine ⟨?_, ?_, ?_⟩
  · unfold cosineSimilarity
    rw [if_neg (fun hne => hne hlen)]
    by_cases hm : Real.sqrt (sqSumFold vecA) = 0 ∨ Real.sqrt (sqSumFold vecB) = 0
    · exact ⟨0, if_pos hm⟩
    · exact ⟨_, if_neg hm⟩
  · intro hm
    unfold cosineSimilarity
    rw [if_neg (fun hne => hne hlen), if_pos hm]
  · intro qe kb e herr embed q n hq hqe hkb
    unfold findRelevantDocuments
    rw [if_neg (by simpa using hkb), hq]
    dsimp only
    rw [if_neg (by simpa using hqe), herr]

/-- Witness for the C7 theorem: a zero-magnitude pair yields exactly 0. -/
theorem cosineSimilarity_total_witness :
    cosineSimilarity [(0 : ℝ)] [(0 : ℝ)] = .ok 0 :=
  (cosineSimilarity_total_on_equal_lengths [(0 : ℝ)] [(0 : ℝ)] rfl).2.1
    (Or.inl (by rw [sqSumFold_zero, Real.sqrt_zero]))

/-- C7 counterexample: cosineSimilarity throws on mismatched lengths, so
it is not total on all pairs of numeric vectors. -/
theorem cosineSimilarity_throws_on_mismatch :
    cosineSimilarity [(1 : ℝ)] [(1 : ℝ), (2 : ℝ)]
      = .error "Vectors must be of the same length to calculate cosine similarity." := rfl

lemma embedContentStep_append (e : EmbedProvider) (kb : List EmbeddedDocument)
    (name content : String) (kb' : List EmbeddedDocument)
    (h : embedContentStep e kb name content = some kb') :
    ∃ l, kb' = kb ++ l ∧ ∀ d ∈ l, jsTrim d.content ≠ "" ∧ d.embedding ≠ [] := by
  unfold embedContentStep at h
  by_cases ht : (jsTrim content).length = 0
  · rw [if_pos ht, Option.some.injEq] at h
    exact ⟨[], by simp [h.symm]⟩
  rw [if_neg ht] at h
  cases he : e content with
  | error err => rw [he] at h; exact absurd h (by simp)
  | ok emb? =>
    rw [he] at h
    cases emb? with
    | none => rw [Option.some.injEq] at h; exact ⟨[], by simp [h.symm]⟩
    | some emb =>
      dsimp only at h
      by_cases hl : emb.length > 0
      · rw [if_pos hl, Option.some.injEq] at h
        refine ⟨[{ id := name, content := content, embedding := emb }], h.symm, ?_⟩
        intro d hd
        rw [List.mem_singleton] at hd
        subst hd
        constructor
        · intro heq
          exact ht (by rw [heq]; rfl)
        · exact List.ne_nil_of_length_pos hl
      · rw [if_neg hl, Option.some.injEq] at h
        exact ⟨[], by simp [h.symm]⟩

lemma embedFile_append (jR : String → Option String) (e : EmbedProvider)
    (kb : List EmbeddedDocument) (f : FileEntry) (kb' : List EmbeddedDocument)
    (h : embedFile jR e kb f = some kb') :
    ∃ l, kb' = kb ++ l ∧ ∀ d ∈ l, jsTrim d.content ≠ "" ∧ d.embedding ≠ [] := by
  unfold embedFile at h
  split at h
  · exact embedContentStep_append e kb f.name _ kb' h
  · split at h
    · cases hp : f.pdfParse with
      | error err =>
        rw [hp, Option.some.injEq] at h
        exact ⟨[], by simp [h.symm]⟩
      | ok extracted =>
        rw [hp] at h
        exact embedContentStep_append e kb f.name extracted kb' h
    · rw [Option.some.injEq] at h
      exact ⟨[], by simp [h.symm]⟩

lemma embedLoop_append (jR : String → Option String) (e : EmbedProvider) :
    ∀ (files : List FileEntry) (kb : List EmbeddedDocument),
    ∃ l, embedLoop jR e kb files = kb ++ l
      ∧ ∀ d ∈ l, jsTrim d.content ≠ "" ∧ d.embedding ≠ []
  | [], kb => ⟨[], by simp [embedLoop]⟩
  | f :: rest, kb => by
    rw [embedLoop]
    cases hf : embedFile jR e kb f with
    | none => exact ⟨[], by simp⟩
    | some kb' =>
      obtain ⟨l₀, hkb', hl₀⟩ := embedFile_append jR e kb f kb' hf
      obtain ⟨l₁, hloop, hl₁⟩ := embedLoop_append jR e rest kb'
      refine ⟨l₀ ++ l₁, ?_, ?_⟩
      · dsimp only
        rw [hloop, hkb', List.append_assoc]
      · intro d hd
        rcases List.mem_append.mp hd with hd0 | hd1
        · exact hl₀ d hd0
        · exact hl₁ d hd1

/-- C9: the corpus store is append-only (every run of the ingestion
pipeline extends the store it was given) and every entry ever reachable
in the store has non-empty trimmed text and a non-empty embedding
vector; no operation modifies or removes an entry. -/
theorem knowledgeBase_append_only :
    (∀ (jR : String → Option String) (e : EmbedProvider)
        (dir : Except String (List FileEntry)) (kb : List EmbeddedDocument),
      ∃ l, loadAndEmbedDocuments jR e dir kb = kb ++ l
        ∧ ∀ d ∈ l, jsTrim d.content ≠ "" ∧ d.embedding ≠ [])
    ∧ (∀ kb, KnowledgeBaseReachable kb →
        ∀ d ∈ kb, jsTrim d.content ≠ "" ∧ d.embedding ≠ []) := by
  have hload : ∀ (jR : String → Option String) (e : EmbedProvider)
      (dir : Except String (List FileEntry)) (kb : List EmbeddedDocument),
      ∃ l, loadAndEmbedDocuments jR e dir kb = kb ++ l
        ∧ ∀ d ∈ l, jsTrim d.content ≠ "" ∧ d.embedding ≠ [] := by
    intro jR e dir kb
    cases dir with
    | error err => exact ⟨[], by simp [loadAndEmbedDocuments]⟩
    | ok files => exact embedLoop_append jR e files kb
  refine ⟨hload, ?_⟩
  intro kb hreach
  induction hreach with
  | init => intro d hd; exact absurd hd (by simp)
  | load jR e dir kb₀ _ ih =>
    intro d hd
    obtain ⟨l, heq, hl⟩ := hload jR e dir kb₀
    rw [heq] at hd
    rcases List.mem_append.mp hd with hd0 | hd1
    · exact ih d hd0
    · exact hl d hd1

/-- Witness for the C9 theorem: the document ingested in a concrete run
satisfies the store invariant. -/
theorem knowledgeBase_append_only_witness :
    jsTrim ({ id := "a.md", content := "hello", embedding := [(1 : ℝ)] } : EmbeddedDocument).content ≠ ""
    ∧ ({ id := "a.md", content := "hello", embedding := [(1 : ℝ)] } : EmbeddedDocument).embedding ≠ [] :=
  knowledgeBase_append_only.2
    (loadAndEmbedDocuments (fun _ => none) (fun _ => .ok (some [(1 : ℝ)]))
      (.ok [⟨"a.md", "hello", .ok ""⟩, ⟨"b.pdf", "", .error "bad"⟩]) [])
    (KnowledgeBaseReachable.load _ _ _ _ KnowledgeBaseReachable.init)
    { id := "a.md", content := "hello", embedding := [(1 : ℝ)] }
    (List.mem_singleton.mpr rfl)

/-- C8: ingestion is best-effort.  A corrupt PDF is skipped and the loop
continues with the remaining files; the concrete directory with one good
markdown file and one corrupt PDF yields a corpus of exactly that one
document; a JSON parse failure falls back to the raw file text; files
with empty trimmed content are skipped; chunks whose embedding resolves
without a usable vector are skipped; and a failing directory read is
absorbed, leaving the store untouched instead of crashing. -/
theorem loadAndEmbedDocuments_best_effort :
    (∀ (jR : String → Option String) (e : EmbedProvider) (kb : List EmbeddedDocument)
        (f : FileEntry) (rest : List FileEntry),
      extname f.name = ".pdf" → (∃ err, f.pdfParse = .error err) →
      embedLoop jR e kb (f :: rest) = embedLoop jR e kb rest)
    ∧ loadAndEmbedDocuments (fun _ => none) (fun _ => .ok (some [(1 : ℝ)]))
        (.ok [⟨"a.md", "hello", .ok ""⟩, ⟨"b.pdf", "", .error "bad"⟩]) []
        = [{ id := "a.md", content := "hello", embedding := [(1 : ℝ)] }]
    ∧ (∀ (jR : String → Option String) (e : EmbedProvider) (kb : List EmbeddedDocument)
        (f : FileEntry), extname f.name = ".json" → jR f.text = none →
        embedFile jR e kb f = embedContentStep e kb f.name f.text)
    ∧ (∀ (e : EmbedProvider) (kb : List EmbeddedDocument) (name content : String),
        (jsTrim content).length = 0 → embedContentStep e kb name content = some kb)
    ∧ (∀ (e : EmbedProvider) (kb : List EmbeddedDocument) (name content : String),
        e content = .ok none ∨ e content = .ok (some []) →
        embedContentStep e kb name content = some kb)
    ∧ (∀ (jR : String → Option String) (e : EmbedProvider) (err : String)
        (kb : List EmbeddedDocument), loadAndEmbedDocuments jR e (.error err) kb = kb) := by
  refine ⟨?_, rfl, ?_, ?_, ?_, fun _ _ _ _ => rfl⟩
  · intro jR e kb f rest hext ⟨err, herr⟩
    rw [embedLoop]
    unfold embedFile
    rw [hext, if_neg (by decide), if_pos rfl, herr]
  · intro jR e kb f hext hjr
    unfold embedFile
    rw [hext, if_pos (Or.inr rfl), if_pos rfl, hjr]
    rfl
  · intro e kb name content ht
    unfold embedContentStep
    rw [if_pos ht]
  · intro e kb name content hkind
    unfold embedContentStep
    by_cases ht : (jsTrim content).length = 0
    · rw [if_pos ht]
    · rw [if_neg ht]
      cases hkind with
      | inl hnone => rw [hnone]
      | inr hempty => rw [hempty]; rfl

/-- Witness for the C8 theorem at concrete inputs. -/
theorem loadAndEmbedDocuments_best_effort_witness :
    embedLoop (fun _ => none) (fun _ => .ok (some [(1 : ℝ)])) []
        [⟨"b.pdf", "", .error "bad"⟩]
      = embedLoop (fun _ => none) (fun _ => .ok (some [(1 : ℝ)])) [] []
    ∧ loadAndEmbedDocuments (fun _ => none) (fun _ => .ok (some [(1 : ℝ)]))
        (.ok [⟨"a.md", "hello", .ok ""⟩, ⟨"b.pdf", "", .error "bad"⟩]) []
        = [{ id := "a.md", content := "hello", embedding := [(1 : ℝ)] }] :=
  ⟨loadAndEmbedDocuments_best_effort.1 (fun _ => none) (fun _ => .ok (some [(1 : ℝ)]))
      [] ⟨"b.pdf", "", .error "bad"⟩ [] rfl ⟨"bad", rfl⟩,
   loadAndEmbedDocuments_best_effort.2.1⟩

/-- C1 (code evaluation at the failing input): with an empty corpus no
context message is injected, so the seeded scaffolding is only two
messages; the canonical provider transcript for input [user "hi"] is
[instruction, acknowledgment, user "hi", model "ok"], and slicing a
fixed three entries returns just [model "ok"]: the caller's own live
turn has been dropped and the returned history does not extend the
input conversation. -/
theorem sendGeminiMessage_slice_drops_user_turn :
    sendGeminiMessage embedNone (canonicalChat "ok") []
      [{ role := "user", content := "hi" }]
      = .ok (.success [{ role := "model", content := "ok" }]
          [{ role := "model", content := "ok" }]) := rfl

/-- C2 counterexample: a history whose last message has role "model" is
accepted, the providers are called, and the turn completes; no
validation error is raised, contrary to the claim. -/
theorem sendGeminiMessage_accepts_model_last :
    sendGeminiMessage embedNone (canonicalChat "ok") []
      [{ role := "model", content := "hi" }]
      = .ok (.success [{ role := "model", content := "ok" }]
          [{ role := "model", content := "ok" }]) := rfl

/-- C2 (amended): sendGeminiMessage fails on validation exactly when the
input history is empty (independently of any provider, none is called);
every non-empty history is accepted: with a provider pair that answers,
the turn completes successfully even if the last message is not a
well-formed user message. -/
theorem sendGeminiMessage_validates_only_emptiness :
    (∀ (embed : EmbedProvider) (chat : ChatProvider) (kb : List EmbeddedDocument),
      sendGeminiMessage embed chat kb []
        = .error "Chat history is empty. Cannot extract user message.")
    ∧ (∀ (kb : List EmbeddedDocument) (h : List Message), h ≠ [] →
      ∃ r nh, sendGeminiMessage embedNone (canonicalChat "ok") kb h
        = .ok (.success r nh)) := by
  constructor
  · intro embed chat kb
    rfl
  · intro kb h hne
    obtain ⟨m, hm⟩ : ∃ m, h.getLast? = some m := by
      cases hl : h.getLast? with
      | none => exact absurd (List.getLast?_eq_none_iff.mp hl) hne
      | some m => exact ⟨m, rfl⟩
    rw [sendGeminiMessage_step embedNone (canonicalChat "ok") kb h m []
          hm (findRelevantDocuments_embedNone kb m.content 3),
        tryBlockResult_canonical "ok" _ m.content (by decide)]
    exact ⟨_, _, rfl⟩

/-- Witness for the C2 theorem at concrete inputs. -/
theorem sendGeminiMessage_validates_only_emptiness_witness :
    sendGeminiMessage embedNone (canonicalChat "ok") [] []
      = .error "Chat history is empty. Cannot extract user message."
    ∧ ∃ r nh, sendGeminiMessage embedNone (canonicalChat "ok") []
        [{ role := "user", content := "x" }] = .ok (.success r nh) :=
  ⟨sendGeminiMessage_validates_only_emptiness.1 embedNone (canonicalChat "ok") [],
   sendGeminiMessage_validates_only_emptiness.2 [] [{ role := "user", content := "x" }]
     (by simp)⟩

lemma tryBlockResult_fail (outcome : Except String (Option String × List Content))
    (hf : (∃ e, outcome = .error e) ∨ (∃ t, outcome = .ok (none, t))
        ∨ (∃ t, outcome = .ok (some "", t)) ∨ (∃ r, outcome = .ok (r, ([] : List Content)))) :
    tryBlockResult outcome = .ok (.errorString "Error connecting with Gemini") := by
  rcases hf with ⟨e, rfl⟩ | ⟨t, rfl⟩ | ⟨t, rfl⟩ | ⟨r, rfl⟩
  · rfl
  · simp [tryBlockResult]
  · simp [tryBlockResult]
  · simp [tryBlockResult]

/-- C3: whenever the chat-completion provider rejects, or resolves with
a falsy reply (missing or empty) or an empty transcript, the HTTP
boundary answers a non-empty request with status 500 and a body that
carries a message only, never a transcript: the caller-visible history
is unchanged. -/
theorem chatWithGemini_provider_failure (embed : EmbedProvider) (chat : ChatProvider)
    (kb : List EmbeddedDocument) (h : List Message) (hne : h ≠ [])
    (hfail : ∀ seed msg, (∃ e, chat seed msg = .error e)
      ∨ (∃ t, chat seed msg = .ok (none, t))
      ∨ (∃ t, chat seed msg = .ok (some "", t))
      ∨ (∃ r, chat seed msg = .ok (r, ([] : List Content)))) :
    (chatWithGemini embed chat kb (some h)).status = 500
    ∧ ∃ m, (chatWithGemini embed chat kb (some h)).body = .messageBody m := by
  obtain ⟨lastMsg, hm⟩ : ∃ m, h.getLast? = some m := by
    cases hl : h.getLast? with
    | none => exact absurd (List.getLast?_eq_none_iff.mp hl) hne
    | some m => exact ⟨m, rfl⟩
  have hlen : ¬ h.length < 1 := Nat.not_lt.mpr (List.length_pos.mpr hne)
  simp only [chatWithGemini]
  rw [if_neg hlen]
  cases hret : findRelevantDocuments embed kb lastMsg.content 3 with
  | error e =>
    have hsend : sendGeminiMessage embed chat kb h = .error e := by
      unfold sendGeminiMessage
      rw [createGeminiHistoryParts_getLast h lastMsg hm]
      simp only [Option.getD_some, List.head?_cons, Option.some_bind]
      rw [hret]
    rw [hsend]
    exact ⟨rfl, ⟨"Internal Server Error", rfl⟩⟩
  | ok docs =>
    rw [sendGeminiMessage_step embed chat kb h lastMsg docs hm hret,
        tryBlockResult_fail _ (hfail _ _)]
    exact ⟨rfl, ⟨"Unexpected response format from AI.", rfl⟩⟩

/-- Witness for the C3 theorem: a provider that always rejects. -/
theorem chatWithGemini_provider_failure_witness :
    (chatWithGemini embedNone (fun _ _ => .error "boom") []
      (some [{ role := "user", content := "hi" }])).status = 500
    ∧ ∃ m, (chatWithGemini embedNone (fun _ _ => .error "boom") []
        (some [{ role := "user", content := "hi" }])).body = .messageBody m :=
  chatWithGemini_provider_failure embedNone (fun _ _ => .error "boom") []
    [{ role := "user", content := "hi" }] (by simp)
    (fun _ _ => Or.inl ⟨"boom", rfl⟩)

/-- C6 (amended): the conversation handed to the chat-completion
provider is exactly the fixed instruction pair, then one user-role
context message precisely when retrieval returned documents, then the
input history minus its last message, with the last message's content
sent as the live turn: the result depends on the provider only through
its value at that seed and that live turn.  (The last message itself is
excluded positionally; an earlier real message with identical content
may still occur in the seed, see the counterexample.) -/
theorem sendGeminiMessage_outbound (embed : EmbedProvider) (chat chat' : ChatProvider)
    (kb : List EmbeddedDocument) (h : List Message) (lastMsg : Message)
    (docs : List EmbeddedDocument)
    (hm : h.getLast? = some lastMsg)
    (hret : findRelevantDocuments embed kb lastMsg.content 3 = .ok docs)
    (hagree : chat' (fullHistoryOf docs ((createGeminiHistoryParts h).dropLast)) lastMsg.content
            = chat (fullHistoryOf docs ((createGeminiHistoryParts h).dropLast)) lastMsg.content) :
    sendGeminiMessage embed chat' kb h = sendGeminiMessage embed chat kb h
    ∧ fullHistoryOf docs ((createGeminiHistoryParts h).dropLast)
      = generateSystemPrompt
        ++ (if docs.length = 0 then []
            else [{ role := some "user",
                    parts := some [{ text := some (contextStringOf docs) }] }])
        ++ (createGeminiHistoryParts h).dropLast := by
  constructor
  · rw [sendGeminiMessage_step embed chat' kb h lastMsg docs hm hret,
        sendGeminiMessage_step embed chat kb h lastMsg docs hm hret, hagree]
  · unfold fullHistoryOf
    by_cases hd : docs = []
    · subst hd
      rw [if_pos contextStringOf_nil]
      simp
    · rw [if_neg (contextStringOf_ne_empty docs hd),
          if_neg (fun hh => hd (List.length_eq_zero.mp hh))]

/-- Witness for the C6 theorem at a concrete one-message history. -/
theorem sendGeminiMessage_outbound_witness :
    sendGeminiMessage embedNone (canonicalChat "ok") [] [{ role := "user", content := "hi" }]
      = sendGeminiMessage embedNone (canonicalChat "ok") [] [{ role := "user", content := "hi" }]
    ∧ fullHistoryOf [] ((createGeminiHistoryParts [{ role := "user", content := "hi" }]).dropLast)
      = generateSystemPrompt
        ++ (if ([] : List EmbeddedDocument).length = 0 then []
            else [{ role := some "user",
                    parts := some [{ text := some (contextStringOf []) }] }])
        ++ (createGeminiHistoryParts [{ role := "user", content := "hi" }]).dropLast :=
  sendGeminiMessage_outbound embedNone (canonicalChat "ok") (canonicalChat "ok") []
    [{ role := "user", content := "hi" }] { role := "user", content := "hi" } []
    rfl (findRelevantDocuments_embedNone [] "hi" 3) rfl

/-- C6 counterexample: when the history repeats the same user content
twice, the seeded outbound history (here with empty retrieval) contains
a message carrying exactly the live-turn content "hi", so the claim
that the last message's content appears nowhere in the seeded history
is false as stated. -/
theorem fullHistory_contains_live_turn_content :
    ({ role := some "user", parts := some [{ text := some "hi" }] } : Content)
      ∈ fullHistoryOf []
          ((createGeminiHistoryParts
            [{ role := "user", content := "hi" },
             { role := "user", content := "hi" }]).dropLast) := by
  decide

/-- C10: every message in a successful result of sendGeminiMessage (both
the reply list and the returned history) has role "user" or "model";
formatContent maps any other provider role to "model" and a missing
first text part to the empty string content. -/
theorem sendGeminiMessage_roles_wellformed (embed : EmbedProvider) (chat : ChatProvider)
    (kb : List EmbeddedDocument) (h : List Message) (r nh : List Message)
    (hok : sendGeminiMessage embed chat kb h = .ok (.success r nh)) :
    (∀ m ∈ nh, m.role = "user" ∨ m.role = "model")
    ∧ (∀ m ∈ r, m.role = "user" ∨ m.role = "model")
    ∧ (∀ c : Content, c.role ≠ some "user" → c.role ≠ some "model" →
        (formatContent c).role = "model")
    ∧ (∀ c : Content, (((c.parts.getD []).head?).bind Part.text) = none →
        (formatContent c).content = "") := by
  obtain ⟨s, t, hr, hnh⟩ := sendGeminiMessage_success_shape embed chat kb h r nh hok
  refine ⟨?_, ?_, ?_, ?_⟩
  · intro m hm
    rw [hnh] at hm
    have hm' := List.mem_of_mem_drop hm
    simp only [formatPartsToMessage] at hm'
    obtain ⟨c, _, rfl⟩ := List.mem_map.mp hm'
    exact formatContent_role_valid c
  · intro m hm
    rw [hr] at hm
    simp only [formatPartsToMessage, List.mem_singleton] at hm
    subst hm
    right
    rfl
  · intro c hcu hcm
    unfold formatContent
    cases hcr : c.role with
    | none => rfl
    | some rr =>
      dsimp only
      have hru : rr ≠ "user" := fun hh => hcu (by rw [hcr, hh])
      have hrm : rr ≠ "model" := fun hh => hcm (by rw [hcr, hh])
      rw [if_neg (by rintro (hh | hh) <;> [exact hru hh; exact hrm hh])]
  · intro c hnone
    unfold formatContent
    dsimp only
    rw [hnone]
    rfl

/-- Witness for the C10 theorem at a concrete successful run and a
concrete non-user non-model role. -/
theorem sendGeminiMessage_roles_wellformed_witness :
    (formatContent { role := some "system", parts := none }).role = "model" :=
  (sendGeminiMessage_roles_wellformed embedNone (canonicalChat "ok") []
      [{ role := "user", content := "hi" }]
      [{ role := "model", content := "ok" }] [{ role := "model", content := "ok" }]
      rfl).2.2.1
    { role := some "system", parts := none } (by simp) (by simp)

end ConversationAI
